import Mathlib

/-!
Verification of the obsidianclone note editor core.

The development shallowly embeds the program's pure core:
text is `List Char` (one element per Unicode code point, matching
Python string indexing), Python `set`s are `Finset Nat`, Python
dicts keyed by block number are association lists, and the file
system seen by the file manager is an association list from paths
to contents.  Each definition is translated from the named source
function; standard-library calls (`os.path.join`, `os.path.relpath`,
`datetime.strftime`, the toolkit's base key handler) are modelled
explicitly with a comment saying so.
-/

namespace ObsidianClone

/-! ### Python string helpers -/

/-- Whitespace characters recognised by Python's `str.strip` and the
regex class `\s` on `str` patterns.  Both are backed by CPython's
`Py_UNICODE_ISSPACE`: the ASCII control whitespace U+0009–U+000D, the
information separators U+001C–U+001F, the space U+0020, and the
Unicode whitespace characters U+0085, U+00A0, U+1680, U+2000–U+200A,
U+2028, U+2029, U+202F, U+205F and U+3000. -/
def pyIsSpace (c : Char) : Bool :=
  decide ((0x09 ≤ c.toNat ∧ c.toNat ≤ 0x0D) ∨
    (0x1C ≤ c.toNat ∧ c.toNat ≤ 0x20) ∨
    c.toNat = 0x85 ∨ c.toNat = 0xA0 ∨ c.toNat = 0x1680 ∨
    (0x2000 ≤ c.toNat ∧ c.toNat ≤ 0x200A) ∨
    c.toNat = 0x2028 ∨ c.toNat = 0x2029 ∨ c.toNat = 0x202F ∨
    c.toNat = 0x205F ∨ c.toNat = 0x3000)

/-- Python `str.strip`: drop leading and trailing whitespace. -/
def pyStrip (s : List Char) : List Char :=
  ((s.dropWhile pyIsSpace).reverse.dropWhile pyIsSpace).reverse

/-- Python `str.lower` (ASCII fragment). -/
def pyLower (s : List Char) : List Char :=
  s.map Char.toLower

/-- Attempt to match `LINK_PATTERN` at the head of `xs`.  On success
returns the captured group together with the text following the match. -/
def tryMatch (xs : List Char) : Option (List Char × List Char) :=
  match xs with
  | a :: b :: rest =>
    if a = '[' ∧ b = '[' then
      match rest.dropWhile (fun c => c ≠ ']') with
      | c :: d :: tail =>
        if c = ']' ∧ d = ']' ∧ rest.takeWhile (fun c => c ≠ ']') ≠ [] then
          some (rest.takeWhile (fun c => c ≠ ']'), tail)
        else none
      | _ => none
    else none
  | _ => none

/-- Left-to-right scan of `re.finditer(LINK_PATTERN, text)`: at each
position try to match; on success record `(match.start, match.end,
match.group 1)` and resume after the match, otherwise advance one
character.  The first argument is a fuel bound (any value at least the
length of the text) that makes the scan structurally recursive. -/
def find_links_fuel : Nat → List Char → Nat → List (Nat × Nat × List Char)
  | 0, _, _ => []
  | _, [], _ => []
  | fuel + 1, c :: cs, i =>
    match tryMatch (c :: cs) with
    | some (body, tail) =>
        (i, i + (body.length + 4), body) ::
          find_links_fuel fuel tail (i + (body.length + 4))
    | none => find_links_fuel fuel cs (i + 1)

/-- `find_all_links` from `link_utils.py`: all `[[...]]` matches as
`(start, end, link_text)` triples. -/
def find_all_links (t : List Char) : List (Nat × Nat × List Char) :=
  find_links_fuel t.length t 0

/-- `create_wiki_link` from `link_utils.py`: `f"[[{text}]]"`. -/
def create_wiki_link (text : List Char) : List Char :=
  '[' :: '[' :: (text ++ [']', ']'])

/-- Display-link position record built by `remove_link_brackets`
(the Python dict with keys `start`, `end`, `text`, `original_start`,
`original_end`). -/
structure LinkPos where
  start : Nat
  stop : Nat
  text : List Char
  original_start : Nat
  original_stop : Nat
deriving Repr, DecidableEq

/-- Recursive core of `remove_link_brackets`: the same scan as
`find_links_fuel`, copying plain text verbatim and each match's
captured group without its brackets, while recording the group's
position in the output (`dispPos`) and in the input (`rawPos`). -/
def remove_lb_fuel : Nat → List Char → Nat → Nat → List Char × List LinkPos
  | 0, _, _, _ => ([], [])
  | _, [], _, _ => ([], [])
  | fuel + 1, c :: cs, rawPos, dispPos =>
    match tryMatch (c :: cs) with
    | some (body, tail) =>
        let r := remove_lb_fuel fuel tail (rawPos + (body.length + 4))
                   (dispPos + body.length)
        (body ++ r.1,
          { start := dispPos, stop := dispPos + body.length, text := body,
            original_start := rawPos,
            original_stop := rawPos + (body.length + 4) } :: r.2)
    | none =>
        let r := remove_lb_fuel fuel cs (rawPos + 1) (dispPos + 1)
        (c :: r.1, r.2)

/-- `remove_link_brackets` from `link_utils.py`: returns the display
text (brackets stripped) and the recorded link positions. -/
def remove_link_brackets (t : List Char) : List Char × List LinkPos :=
  remove_lb_fuel t.length t 0 0

/-- Ordered, non-overlapping spans: every span starts no earlier than
the running lower bound and ends strictly after it starts, and the
next span starts no earlier than this span's end. -/
def spansOK : Nat → List (Nat × Nat × List Char) → Bool
  | _, [] => true
  | lo, (s, e, _) :: rest => decide (lo ≤ s) && decide (s < e) && spansOK e rest

/-! ### Filename sanitization (`src/utils/file_utils.py`) -/

/-- One step of `posixpath.join`: an absolute component restarts the
path; otherwise a separator is inserted unless the path so far is empty
or already ends with one. -/
def pjoin1 (path comp : List Char) : List Char :=
  if comp.head? = some '/' then comp
  else if path = [] ∨ path.getLast? = some '/' then path ++ comp
  else path ++ '/' :: comp

/-- `os.path.join(base, *comps)` (POSIX). -/
def pjoinList (base : List Char) (comps : List (List Char)) : List Char :=
  comps.foldl pjoin1 base

/-- One undo snapshot (`{'text': ..., 'cursor_position': ...}`). -/
structure UndoState where
  text : List Char
  cursor_position : Nat
deriving Repr, DecidableEq

/-- The widget state relevant to the undo engine and key handling. -/
structure EditorState where
  text : List Char
  cursor : Nat
  undo_stack : List UndoState
  redo_stack : List UndoState
  is_undoing : Bool
deriving Repr, DecidableEq

/-- `max_undo_items` set in `__init__`. -/
def max_undo_items : Nat := 100

/-- `save_undo_state`: skip while restoring, skip duplicate text,
otherwise push the snapshot, evict the oldest entry beyond the size
limit, and clear the redo stack. -/
def save_undo_state (st : EditorState) : EditorState :=
  if st.is_undoing then st
  else
    match st.undo_stack with
    | top :: _ =>
      if top.text = st.text then st
      else
        let s1 := ⟨st.text, st.cursor⟩ :: st.undo_stack
        { st with
          undo_stack := if s1.length > max_undo_items then s1.dropLast else s1,
          redo_stack := [] }
    | [] =>
        let s1 := [(⟨st.text, st.cursor⟩ : UndoState)]
        { st with
          undo_stack := if s1.length > max_undo_items then s1.dropLast else s1,
          redo_stack := [] }

/-- `undo`: no-op when the undo stack has at most one entry; otherwise
pop the current snapshot onto the redo stack and restore the new top,
clamping the saved cursor position to the restored text's length. -/
def undo (st : EditorState) : EditorState :=
  match st.undo_stack with
  | [] => st
  | [_] => st
  | cur :: prev :: rest =>
    { st with
      text := prev.text,
      cursor := min prev.cursor_position prev.text.length,
      undo_stack := prev :: rest,
      redo_stack := cur :: st.redo_stack,
      is_undoing := false }

/-- `redo`: no-op when the redo stack is empty; otherwise pop one
snapshot, push it back onto the undo stack and restore it with a
clamped cursor. -/
def redo (st : EditorState) : EditorState :=
  match st.redo_stack with
  | [] => st
  | r :: rest =>
    { st with
      text := r.text,
      cursor := min r.cursor_position r.text.length,
      undo_stack := r :: st.undo_stack,
      redo_stack := rest,
      is_undoing := false }

/-! ### Key handling (`keyPressEvent`)

Qt key codes and modifier flags are embedded as plain numbers and
Booleans; `modifiers() == Qt.ControlModifier` is Control held with
Shift up, `Qt.ControlModifier | Qt.ShiftModifier` is both held. -/

def key_Tab : Nat := 0x01000001
def key_Backspace : Nat := 0x01000003
def key_Return : Nat := 0x01000004
def key_Enter : Nat := 0x01000005
def key_Delete : Nat := 0x01000007
def key_Control : Nat := 0x01000021
def key_Y : Nat := 0x59
def key_Z : Nat := 0x5a

/-- A key press as seen by `keyPressEvent`. -/
structure KeyEvent where
  key : Nat
  ctrl : Bool
  shift : Bool
  text : List Char
deriving Repr, DecidableEq

/-- Modelled from the toolkit: the effect of `QTextEdit.keyPressEvent`
(the `super()` call) on the plain text and cursor.  A printable key
event inserts its text at the cursor; Backspace deletes the character
before the cursor; Delete deletes the character at the cursor; events
with a Control modifier or an empty text produce no edit. -/
def baseKeyEdit (st : EditorState) (ev : KeyEvent) : EditorState :=
  if ev.ctrl then st
  else if ev.key = key_Backspace then
    if st.cursor = 0 then st
    else { st with
           text := st.text.take (st.cursor - 1) ++ st.text.drop st.cursor,
           cursor := st.cursor - 1 }
  else if ev.key = key_Delete then
    { st with text := st.text.take st.cursor ++ st.text.drop (st.cursor + 1) }
  else if ev.text ≠ [] then
    { st with
      text := st.text.take st.cursor ++ ev.text ++ st.text.drop st.cursor,
      cursor := st.cursor + ev.text.length }
  else st

/-- `keyPressEvent` from `clickable_text_edit.py`: Ctrl+Z undoes and
Ctrl+Y / Ctrl+Shift+Z redoes (only in edit mode, and the event is
accepted either way); any other key first saves an undo snapshot when
it is one of the structural keys, then falls through to the base
class handler.  No branch consults the AI-response block map or the
cursor position. -/
def keyPressEvent (is_read_only : Bool) (st : EditorState) (ev : KeyEvent) :
    EditorState :=
  if ev.ctrl ∧ ¬ev.shift ∧ ev.key = key_Z then
    if ¬is_read_only then undo st else st
  else if (ev.ctrl ∧ ¬ev.shift ∧ ev.key = key_Y) ∨
          (ev.ctrl ∧ ev.shift ∧ ev.key = key_Z) then
    if ¬is_read_only then redo st else st
  else
    let st1 :=
      if ¬st.is_undoing ∧ ev.key ≠ key_Control ∧
          (ev.key = key_Return ∨ ev.key = key_Enter ∨ ev.key = key_Tab ∨
           ev.key = key_Delete ∨ ev.key = key_Backspace) then
        save_undo_state st
      else st
    baseKeyEdit st1 ev

/-! ### Block classification (`clickable_text_edit.py`)

`QTextDocument` blocks are the lines of the plain text; a cursor
position's block number is the number of newlines before it. -/

/-- The document's blocks: the text split on newlines. -/
def docLines (t : List Char) : List (List Char) :=
  t.splitOn '\n'

/-- Block number of a cursor position: newlines strictly before it. -/
def posToBlock (t : List Char) (pos : Nat) : Nat :=
  ((t.take pos).filter (fun c => c = '\n')).length

/-- AI response sentinel markers. -/
def aiStartMarker : List Char := "§§§AI_RESPONSE_START§§§".toList
def aiEndMarker : List Char := "§§§AI_RESPONSE_END§§§".toList

/-- Loop state of `find_ai_response_blocks`. -/
structure AIScan where
  blocks : List (Nat × Nat × Nat)
  in_ai : Bool
  ai_start : Option Nat
deriving Repr, DecidableEq

/-- One iteration of the `find_ai_response_blocks` loop over
`(block_num, text)`. -/
def aiStep (st : AIScan) (p : Nat × List Char) : AIScan :=
  let t := pyStrip p.2
  if t = aiStartMarker then
    { st with in_ai := true, ai_start := some p.1 }
  else if t = aiEndMarker then
    { blocks :=
        match st.ai_start with
        | some s =>
          if st.in_ai then
            st.blocks ++ (List.range (p.1 + 1 - s)).map (fun k => (s + k, s, p.1))
          else st.blocks
        | none => st.blocks,
      in_ai := false, ai_start := none }
  else st

/-- `find_ai_response_blocks`: map each block number lying in a
matched start/end marker pair (markers included) to the pair's start
and end block numbers.  Nothing is recorded for a start marker whose
end marker never arrives. -/
def find_ai_response_blocks (lines : List (List Char)) : List (Nat × Nat × Nat) :=
  (lines.enum.foldl aiStep ⟨[], false, none⟩).blocks

/-- Loop state of `find_callout_blocks`.  `folded` is the widget's
`folded_callouts` set, threaded through the scan because the loop both
reads and extends it. -/
structure CalloutScan where
  cb : List (Nat × Nat × Nat)
  folded : Finset Nat
  current_start : Option Nat
  is_thinking : Bool
deriving DecidableEq

/-- Close the callout that started at `s` and ends at block `stop - 1`:
record its blocks and auto-fold it when it is a thinking callout that
was neither manually toggled nor already folded. -/
def closeCallout (manual : Finset Nat) (st : CalloutScan) (s stop : Nat) :
    CalloutScan :=
  { cb := st.cb ++ (List.range (stop - s)).map (fun k => (s + k, s, stop - 1)),
    folded :=
      if st.is_thinking ∧ s ∉ manual ∧ s ∉ st.folded then insert s st.folded
      else st.folded,
    current_start := none,
    is_thinking := false }

/-- One iteration of the `find_callout_blocks` loop over
`(block_num, text)`. -/
def calloutStep (manual : Finset Nat) (st : CalloutScan) (p : Nat × List Char) :
    CalloutScan :=
  if (pyStrip p.2).head? = some '>' then
    match st.current_start with
    | none =>
      { st with
        current_start := some p.1,
        is_thinking := pyLower (pyStrip p.2) = "> thinking...".toList }
    | some _ => st
  else
    match st.current_start with
    | none => st
    | some s => closeCallout manual st s p.1

/-- Final step of `find_callout_blocks`: a callout still open at the
end of the loop extends to the end of the document and is closed
there. -/
def calloutFinish (manual : Finset Nat) (total : Nat) (st : CalloutScan) :
    List (Nat × Nat × Nat) × Finset Nat :=
  match st.current_start with
  | none => (st.cb, st.folded)
  | some s =>
    ((closeCallout manual st s total).cb, (closeCallout manual st s total).folded)

/-- `find_callout_blocks`: group maximal runs of `>`-prefixed lines
into callout blocks, auto-folding `> thinking...` callouts that are
neither manually toggled nor already folded; a run reaching the end of
the document is closed there.  Returns the callout block map and the
updated folded set. -/
def find_callout_blocks (lines : List (List Char))
    (folded manual : Finset Nat) : List (Nat × Nat × Nat) × Finset Nat :=
  calloutFinish manual lines.length
    (lines.enum.foldl (calloutStep manual) ⟨[], folded, none, false⟩)

/-- Association-list lookup for the block maps (Python dict access). -/
def blockLookup (bn : Nat) : List (Nat × Nat × Nat) → Option (Nat × Nat)
  | [] => none
  | (i, s, e) :: rest => if i = bn then some (s, e) else blockLookup bn rest

/-- `toggle_callout_fold`: for a block inside a callout, record the
callout's start line as manually toggled and flip its fold state. -/
def toggle_callout_fold (cb : List (Nat × Nat × Nat))
    (folded manual : Finset Nat) (bn : Nat) : Finset Nat × Finset Nat :=
  match blockLookup bn cb with
  | none => (folded, manual)
  | some (s, _) =>
    (if s ∈ folded then folded.erase s else insert s folded, insert s manual)

/-! ### Date utilities (`src/utils/date_utils.py`)

A `datetime` is embedded as its calendar fields; `strftime` directives
are modelled field by field (`%A` via Sakamoto's day-of-week formula,
which agrees with the proleptic Gregorian calendar `datetime` uses). -/

/-- A calendar date (the fields of `datetime` the program reads). -/
structure PyDate where
  year : Nat
  month : Nat
  day : Nat
deriving Repr, DecidableEq

/-- Decimal digits of a number, as characters. -/
def natDigits (n : Nat) : List Char :=
  (Nat.repr n).toList

/-- Left-pad with zeros to the given width (`strftime` zero padding). -/
def padZero (w : Nat) (s : List Char) : List Char :=
  List.replicate (w - s.length) '0' ++ s

/-- Models `strftime("%A")`: day-of-week index, 0 = Sunday, by
Sakamoto's formula. -/
def weekdayIndex (d : PyDate) : Nat :=
  let t := [0, 3, 2, 5, 0, 3, 5, 1, 4, 6, 2, 4]
  let y := if d.month < 3 then d.year - 1 else d.year
  (y + y / 4 - y / 100 + y / 400 + t.getD (d.month - 1) 0 + d.day) % 7

def dayNames : List (List Char) :=
  ["Sunday", "Monday", "Tuesday", "Wednesday", "Thursday", "Friday",
   "Saturday"].map String.toList

def monthNames : List (List Char) :=
  ["January", "February", "March", "April", "May", "June", "July",
   "August", "September", "October", "November", "December"].map String.toList

/-- `get_ordinal_suffix` from `date_utils.py`. -/
def get_ordinal_suffix (day : Nat) : List Char :=
  if 10 ≤ day % 100 ∧ day % 100 ≤ 20 then "th".toList
  else
    match day % 10 with
    | 1 => "st".toList
    | 2 => "nd".toList
    | 3 => "rd".toList
    | _ => "th".toList

/-- `format_journal_date` from `date_utils.py`:
`f"{day_of_week} {day_num}{suffix} {month_name} {year_str}"`. -/
def format_journal_date (d : PyDate) : List Char :=
  (dayNames.getD (weekdayIndex d) []) ++ [' '] ++ natDigits d.day ++
    get_ordinal_suffix d.day ++ [' '] ++
    (monthNames.getD (d.month - 1) []) ++ [' '] ++ padZero 4 (natDigits d.year)

/-- `get_journal_path_components` from `date_utils.py`:
(`"%Y"`, `"%m"`, `"%d"`). -/
def get_journal_path_components (d : PyDate) :
    List Char × List Char × List Char :=
  (padZero 4 (natDigits d.year), padZero 2 (natDigits d.month),
    padZero 2 (natDigits d.day))

/-- `create_journal_header` from `date_utils.py`. -/
def create_journal_header (d : PyDate) : List Char :=
  "# ".toList ++ format_journal_date d ++ "\n\n".toList

/-! ### File manager (`src/services/file_manager.py`)

The file system is an association list from paths to file contents;
reading a path not in the list is a `FileNotFoundError`, and directory
creation is invisible at this level (`ensure_directory_exists` only
creates directories). -/

/-- A flat file-system snapshot. -/
def FS : Type := List (List Char × List Char)

/-- Content of a path, if the file exists. -/
def fsRead : FS → List Char → Option (List Char)
  | [], _ => none
  | (q, c) :: rest, p => if q = p then some c else fsRead rest p

/-- Write (create or overwrite) a file. -/
def fsWrite (fs : FS) (p c : List Char) : FS :=
  (p, c) :: fs

/-- The exception caught by `read_note`. -/
inductive PyExc where
  | fileNotFound
deriving Repr, DecidableEq

/-- Models `open(path).read()`: the content, or `FileNotFoundError`
when the path has no file. -/
def pyOpenRead (fs : FS) (p : List Char) : Except PyExc (List Char) :=
  match fsRead fs p with
  | some c => Except.ok c
  | none => Except.error PyExc.fileNotFound

/-- `read_note` from `file_manager.py`: read the file, returning the
empty string when `FileNotFoundError` is raised. -/
def read_note (fs : FS) (p : List Char) : Except PyExc (List Char) :=
  match pyOpenRead fs p with
  | Except.ok c => Except.ok c
  | Except.error PyExc.fileNotFound => Except.ok []

/-- The journal file path built by `create_journal_entry`:
`os.path.join(journal_dir, year, month)` and then `f"{day}.md"` under
it. -/
def journalFilePath (journal_dir : List Char) (d : PyDate) : List Char :=
  pjoinList
    (pjoinList journal_dir
      [(get_journal_path_components d).1, (get_journal_path_components d).2.1])
    [(get_journal_path_components d).2.2 ++ ".md".toList]

/-- `create_journal_entry` from `file_manager.py`: build the path
`journal_dir/<%Y>/<%m>/<%d>.md`, create the file with the formatted
header when it does not exist, and return the path (the directory
creation step has no effect on the file map). -/
def create_journal_entry (journal_dir : List Char) (d : PyDate) (fs : FS) :
    List Char × FS :=
  match fsRead fs (journalFilePath journal_dir d) with
  | some _ => (journalFilePath journal_dir d, fs)
  | none =>
    (journalFilePath journal_dir d,
      fsWrite fs (journalFilePath journal_dir d) (create_journal_header d))

/-! ## Lemmas about the link scanner -/

theorem tryMatch_some {xs body tail : List Char}
    (h : tryMatch xs = some (body, tail)) :
    xs = '[' :: '[' :: (body ++ ']' :: ']' :: tail) ∧ body ≠ [] ∧
      ∀ c ∈ body, c ≠ ']' := by
  unfold tryMatch at h
  split at h
  · rename_i a b rest
    split at h
    · rename_i hab
      split at h
      · rename_i c d tl hdw
        split at h
        · rename_i hcd
          injection h with h'
          have hb : rest.takeWhile (fun c => c ≠ ']') = body := congrArg Prod.fst h'
          have ht : tl = tail := congrArg Prod.snd h'
          have hrest : rest = body ++ ']' :: ']' :: tail := by
            have h2 := List.takeWhile_append_dropWhile (fun c => (c ≠ ']' : Bool)) rest
            rw [hb, hdw, hcd.1, hcd.2.1, ht] at h2
            exact h2.symm
          refine ⟨by rw [hab.1, hab.2, hrest], by rw [← hb]; exact hcd.2.2, ?_⟩
          intro x hx
          have h3 := List.mem_takeWhile_imp (by rw [hb]; exact hx)
          simpa using h3
        · simp at h
      · simp at h
    · simp at h
  · simp at h

theorem tryMatch_some_length {xs body tail : List Char}
    (h : tryMatch xs = some (body, tail)) :
    xs.length = body.length + 4 + tail.length := by
  obtain ⟨hxs, -, -⟩ := tryMatch_some h
  rw [hxs]; simp; omega

theorem remove_lb_fuel_length (fuel : Nat) :
    ∀ (xs : List Char) (i d : Nat), xs.length ≤ fuel →
      (remove_lb_fuel fuel xs i d).1.length +
        4 * (find_links_fuel fuel xs i).length = xs.length := by
  induction fuel with
  | zero =>
    intro xs i d h
    have : xs = [] := List.length_eq_zero.mp (Nat.le_zero.mp h)
    subst this
    simp [remove_lb_fuel, find_links_fuel]
  | succ n ih =>
    intro xs i d h
    cases xs with
    | nil => simp [remove_lb_fuel, find_links_fuel]
    | cons c cs =>
      cases htm : tryMatch (c :: cs) with
      | none =>
        have hrec := ih cs (i + 1) (d + 1) (by simpa using Nat.le_of_succ_le_succ h)
        simp only [remove_lb_fuel, find_links_fuel, htm]
        simp only [List.length_cons]
        omega
      | some bt =>
        obtain ⟨body, tail⟩ := bt
        have hlen := tryMatch_some_length htm
        have htail : tail.length ≤ n := by
          simp only [List.length_cons] at hlen h; omega
        have hrec := ih tail (i + (body.length + 4)) (d + body.length) htail
        simp only [remove_lb_fuel, find_links_fuel, htm]
        simp only [List.length_cons, List.length_append] at hlen h ⊢
        omega

theorem remove_lb_fuel_spans (fuel : Nat) :
    ∀ (xs : List Char) (i d : Nat), ∀ p ∈ (remove_lb_fuel fuel xs i d).2,
      p.stop = p.start + p.text.length := by
  induction fuel with
  | zero => intro xs i d p hp; simp [remove_lb_fuel] at hp
  | succ n ih =>
    intro xs i d p hp
    cases xs with
    | nil => simp [remove_lb_fuel] at hp
    | cons c cs =>
      cases htm : tryMatch (c :: cs) with
      | none =>
        simp only [remove_lb_fuel, htm] at hp
        exact ih cs (i + 1) (d + 1) p hp
      | some bt =>
        obtain ⟨body, tail⟩ := bt
        simp only [remove_lb_fuel, htm, List.mem_cons] at hp
        rcases hp with hp | hp
        · subst hp; rfl
        · exact ih tail (i + (body.length + 4)) (d + body.length) p hp

theorem spansOK_weaken :
    ∀ (l : List (Nat × Nat × List Char)) (lo lo' : Nat), lo' ≤ lo →
      spansOK lo l = true → spansOK lo' l = true := by
  intro l
  cases l with
  | nil => intro lo lo' _ _; rfl
  | cons sp rest =>
    obtain ⟨s, e, b⟩ := sp
    intro lo lo' hle h
    simp only [spansOK, Bool.and_eq_true, decide_eq_true_eq] at h ⊢
    exact ⟨⟨by omega, h.1.2⟩, h.2⟩

theorem find_links_fuel_spansOK (fuel : Nat) :
    ∀ (xs : List Char) (i : Nat), spansOK i (find_links_fuel fuel xs i) = true := by
  induction fuel with
  | zero => intro xs i; simp [find_links_fuel, spansOK]
  | succ n ih =>
    intro xs i
    cases xs with
    | nil => simp [find_links_fuel, spansOK]
    | cons c cs =>
      cases htm : tryMatch (c :: cs) with
      | none =>
        simp only [find_links_fuel, htm]
        exact spansOK_weaken _ (i + 1) i (by omega) (ih cs (i + 1))
      | some bt =>
        obtain ⟨body, tail⟩ := bt
        simp only [find_links_fuel, htm, spansOK, Bool.and_eq_true,
          decide_eq_true_eq]
        exact ⟨⟨le_rfl, by omega⟩, ih tail (i + (body.length + 4))⟩

theorem find_links_fuel_shape (fuel : Nat) :
    ∀ (xs : List Char) (i : Nat), ∀ sp ∈ find_links_fuel fuel xs i,
      i ≤ sp.1 ∧ sp.2.1 = sp.1 + (sp.2.2.length + 4) ∧ sp.2.2 ≠ [] ∧
      (∀ c ∈ sp.2.2, c ≠ ']') ∧
      (xs.drop (sp.1 - i)).take (sp.2.2.length + 4) = create_wiki_link sp.2.2 := by
  induction fuel with
  | zero => intro xs i sp hsp; simp [find_links_fuel] at hsp
  | succ n ih =>
    intro xs i sp hsp
    cases xs with
    | nil => simp [find_links_fuel] at hsp
    | cons c cs =>
      cases htm : tryMatch (c :: cs) with
      | none =>
        simp only [find_links_fuel, htm] at hsp
        obtain ⟨h1, h2, h3, h4, h5⟩ := ih cs (i + 1) sp hsp
        refine ⟨by omega, h2, h3, h4, ?_⟩
        have hsub : sp.1 - i = (sp.1 - (i + 1)) + 1 := by omega
        rw [hsub, List.drop_succ_cons]
        exact h5
      | some bt =>
        obtain ⟨body, tail⟩ := bt
        obtain ⟨hxs, hne, hnr⟩ := tryMatch_some htm
        have hsplit : c :: cs = create_wiki_link body ++ tail := by
          rw [hxs]; simp [create_wiki_link]
        have hwl : (create_wiki_link body).length = body.length + 4 := by
          simp [create_wiki_link]
        simp only [find_links_fuel, htm, List.mem_cons] at hsp
        rcases hsp with hsp | hsp
        · subst hsp
          refine ⟨le_rfl, rfl, hne, hnr, ?_⟩
          rw [Nat.sub_self, List.drop_zero, hsplit, ← hwl]
          exact List.take_left _ _
        · obtain ⟨h1, h2, h3, h4, h5⟩ := ih tail (i + (body.length + 4)) sp hsp
          refine ⟨by omega, h2, h3, h4, ?_⟩
          have hsub : sp.1 - i = (create_wiki_link body).length +
              (sp.1 - (i + (body.length + 4))) := by omega
          rw [hsub, hsplit, List.drop_append]
          exact h5

/-! ## Claim C1 -/

/-- Claim C1: for every raw text `t`, `remove_link_brackets` returns a
display string whose length is `t`'s length minus four per well-formed
link (stated additively over `Nat`), and every recorded display span
satisfies `end - start = length of its link text`. -/
theorem C1_display_projection (t : List Char) :
    (remove_link_brackets t).1.length + 4 * (find_all_links t).length = t.length ∧
    ∀ p ∈ (remove_link_brackets t).2,
      p.stop - p.start = p.text.length ∧ p.stop = p.start + p.text.length := by
  constructor
  · exact remove_lb_fuel_length t.length t 0 0 le_rfl
  · intro p hp
    have h := remove_lb_fuel_spans t.length t 0 0 p hp
    exact ⟨by omega, h⟩

/-- Witness for C1 at the concrete text `"a [[b]] c"`, whose single
link produces display text `"a b c"` and the span `[2, 3)`. -/
theorem C1_display_projection_witness :
    ((remove_link_brackets "a [[b]] c".toList).1.length +
        4 * (find_all_links "a [[b]] c".toList).length =
      "a [[b]] c".toList.length) ∧
    ((⟨2, 3, ['b'], 2, 7⟩ : LinkPos).stop - (⟨2, 3, ['b'], 2, 7⟩ : LinkPos).start =
      (⟨2, 3, ['b'], 2, 7⟩ : LinkPos).text.length) :=
  ⟨(C1_display_projection "a [[b]] c".toList).1,
    ((C1_display_projection "a [[b]] c".toList).2 ⟨2, 3, ['b'], 2, 7⟩
      (by decide)).1⟩

/-! ## Claim C2 -/

/-- Claim C2: the spans returned by `find_all_links` are in strictly
increasing, non-overlapping order; each span delimits exactly
`[[body]]` for its non-empty body containing no `]`; and malformed or
unmatched bracket sequences produce no span (shown on representative
inputs) while the function is total, so no error is possible. -/
theorem C2_find_all_links (t : List Char) :
    spansOK 0 (find_all_links t) = true ∧
    (∀ sp ∈ find_all_links t,
      sp.2.2 ≠ [] ∧ (∀ c ∈ sp.2.2, c ≠ ']') ∧
      sp.2.1 = sp.1 + (sp.2.2.length + 4) ∧
      (t.drop sp.1).take (sp.2.1 - sp.1) = create_wiki_link sp.2.2) ∧
    find_all_links "[[abc".toList = [] ∧
    find_all_links "[[]]".toList = [] ∧
    find_all_links "[[a]b]]".toList = [] ∧
    find_all_links "ab ]] [[".toList = [] := by
  refine ⟨find_links_fuel_spansOK t.length t 0, ?_, by decide, by decide,
    by decide, by decide⟩
  intro sp hsp
  obtain ⟨h1, h2, h3, h4, h5⟩ := find_links_fuel_shape t.length t 0 sp hsp
  refine ⟨h3, h4, h2, ?_⟩
  have hsub : sp.2.1 - sp.1 = sp.2.2.length + 4 := by omega
  rw [hsub]
  simpa using h5

/-- Witness for C2 at the concrete text `"x [[ab]] [[c]]"`, applying
the theorem to its first span `(2, 8, "ab")`. -/
theorem C2_find_all_links_witness :
    ((2, 8, ['a', 'b']) : Nat × Nat × List Char) ∈
        find_all_links "x [[ab]] [[c]]".toList ∧
    ("x [[ab]] [[c]]".toList.drop 2).take (8 - 2) =
      create_wiki_link ['a', 'b'] := by
  refine ⟨by decide, ?_⟩
  have h := ((C2_find_all_links "x [[ab]] [[c]]".toList).2.1
    (2, 8, ['a', 'b']) (by decide)).2.2.2
  simpa using h

/-! ## Claim C7 -/

/-- Claim C7: `undo` is a no-op when the undo stack has at most one
entry; otherwise it pops the current snapshot onto the redo stack,
restores the new top of the undo stack as the live text, and clamps
the restored cursor position to at most the new text's length. -/
theorem C7_undo_semantics (st : EditorState) :
    (st.undo_stack.length ≤ 1 → undo st = st) ∧
    (∀ cur prev rest, st.undo_stack = cur :: prev :: rest →
      undo st =
        { st with
          text := prev.text,
          cursor := min prev.cursor_position prev.text.length,
          undo_stack := prev :: rest,
          redo_stack := cur :: st.redo_stack,
          is_undoing := false }) := by
  constructor
  · intro h
    match hs : st.undo_stack with
    | [] => simp [undo, hs]
    | [x] => simp [undo, hs]
    | a :: b :: r => rw [hs] at h; simp at h
  · intro cur prev rest h
    simp [undo, h]

/-- Witness for C7: a one-entry stack is left unchanged, and a
two-entry stack restores the older snapshot with the cursor clamped
from 5 down to the restored text's length 1. -/
theorem C7_undo_semantics_witness :
    undo ⟨"A".toList, 1, [⟨"A".toList, 1⟩], [], false⟩ =
      ⟨"A".toList, 1, [⟨"A".toList, 1⟩], [], false⟩ ∧
    undo ⟨"AB".toList, 2, [⟨"AB".toList, 2⟩, ⟨"A".toList, 5⟩], [], false⟩ =
      { text := "A".toList, cursor := 1,
        undo_stack := [⟨"A".toList, 5⟩],
        redo_stack := [⟨"AB".toList, 2⟩], is_undoing := false } := by
  constructor
  · exact (C7_undo_semantics _).1 (by decide)
  · have h := (C7_undo_semantics
      ⟨"AB".toList, 2, [⟨"AB".toList, 2⟩, ⟨"A".toList, 5⟩], [], false⟩).2
      ⟨"AB".toList, 2⟩ ⟨"A".toList, 5⟩ [] rfl
    simpa using h

/-! ## Claim C8 -/

/-- Claim C8: starting from live text `"A"` with a recorded state,
editing to `"AB"` and recording again, `undo` makes the live text
`"A"` and a subsequent `redo` makes it `"AB"` again. -/
theorem C8_undo_redo_roundtrip :
    (undo (save_undo_state
        { save_undo_state (⟨"A".toList, 1, [], [], false⟩ : EditorState) with
          text := "AB".toList, cursor := 2 })).text = "A".toList ∧
    (redo (undo (save_undo_state
        { save_undo_state (⟨"A".toList, 1, [], [], false⟩ : EditorState) with
          text := "AB".toList, cursor := 2 }))).text = "AB".toList := by
  decide

/-! ## Claim C10 -/

/-- Claim C10: reading a path whose file does not exist returns the
empty string, and `read_note` never raises (it always returns a
normal result). -/
theorem C10_read_note_missing (fs : FS) (p : List Char)
    (h : fsRead fs p = none) :
    read_note fs p = Except.ok [] ∧ ∃ c, read_note fs p = Except.ok c := by
  have hr : read_note fs p = Except.ok [] := by
    simp [read_note, pyOpenRead, h]
  exact ⟨hr, [], hr⟩

/-- Witness for C10 on the empty file system. -/
theorem C10_read_note_missing_witness :
    read_note [] "missing.md".toList = Except.ok [] :=
  (C10_read_note_missing [] "missing.md".toList rfl).1

/-! ## Claim C3 -/

/-- Counterexample to claim C3: in the document
`§§§AI_RESPONSE_START§§§\nhello\n§§§AI_RESPONSE_END§§§` position 26
lies on line 1, strictly inside the chatAssistant region `(0, 2)`, yet
a plain printable key press changes the document text — the edit is
not rejected. -/
theorem C3_counterexample :
    let t := "§§§AI_RESPONSE_START§§§\nhello\n§§§AI_RESPONSE_END§§§".toList
    blockLookup (posToBlock t 26) (find_ai_response_blocks (docLines t)) =
        some (0, 2) ∧
    0 < posToBlock t 26 ∧ posToBlock t 26 < 2 ∧
    (keyPressEvent false ⟨t, 26, [], [], false⟩
        ⟨0x58, false, false, ['x']⟩).text ≠ t := by
  decide

/-- Claim C3 as amended: `keyPressEvent` applies no position-based
edit protection.  For any state whose cursor block lies strictly
inside a chatAssistant region, a printable, modifier-free key event is
still forwarded to the base editor, which inserts the event's text at
the cursor — the document text changes. -/
theorem C3_amended (st : EditorState) (ev : KeyEvent) (s e : Nat)
    (hreg : blockLookup (posToBlock st.text st.cursor)
      (find_ai_response_blocks (docLines st.text)) = some (s, e))
    (hse : s < posToBlock st.text st.cursor ∧ posToBlock st.text st.cursor < e)
    (hc : ev.ctrl = false)
    (hkR : ev.key ≠ key_Return) (hkE : ev.key ≠ key_Enter)
    (hkT : ev.key ≠ key_Tab) (hkD : ev.key ≠ key_Delete)
    (hkB : ev.key ≠ key_Backspace) (ht : ev.text ≠ []) :
    (keyPressEvent false st ev).text =
      st.text.take st.cursor ++ ev.text ++ st.text.drop st.cursor ∧
    (keyPressEvent false st ev).text ≠ st.text := by
  have hkey : keyPressEvent false st ev = baseKeyEdit st ev := by
    simp [keyPressEvent, hc, hkR, hkE, hkT, hkD, hkB]
  have hbase : (baseKeyEdit st ev).text =
      st.text.take st.cursor ++ ev.text ++ st.text.drop st.cursor := by
    simp [baseKeyEdit, hc, hkD, hkB, ht]
  refine ⟨by rw [hkey, hbase], ?_⟩
  rw [hkey, hbase]
  intro hcontra
  have hlen := congrArg List.length hcontra
  simp only [List.length_append, List.length_take, List.length_drop] at hlen
  have hz : ev.text.length = 0 := by omega
  exact ht (List.length_eq_zero.mp hz)

/-- Witness for the amended C3 at the concrete AI-response document. -/
theorem C3_amended_witness :
    (keyPressEvent false
        ⟨"§§§AI_RESPONSE_START§§§\nhello\n§§§AI_RESPONSE_END§§§".toList,
          26, [], [], false⟩
        ⟨0x58, false, false, ['x']⟩).text ≠
      "§§§AI_RESPONSE_START§§§\nhello\n§§§AI_RESPONSE_END§§§".toList := by
  have h := C3_amended
    ⟨"§§§AI_RESPONSE_START§§§\nhello\n§§§AI_RESPONSE_END§§§".toList,
      26, [], [], false⟩
    ⟨0x58, false, false, ['x']⟩ 0 2 (by decide) (by decide) rfl
    (by decide) (by decide) (by decide) (by decide) (by decide) (by decide)
  exact h.2

/-! ## Claim C4 -/

/-- Every block entry the `find_ai_response_blocks` loop records was
either present already or was recorded at an end-marker line: its span
start is at most its block index, which is at most the end-marker
line's index, where the region ends. -/
theorem aiScan_blocks_from_end (ps : List (Nat × List Char)) :
    ∀ (st : AIScan) (i s e : Nat), (i, s, e) ∈ (ps.foldl aiStep st).blocks →
      (i, s, e) ∈ st.blocks ∨
        ∃ q ∈ ps, pyStrip q.2 = aiEndMarker ∧ s ≤ i ∧ i ≤ e ∧ e = q.1 := by
  induction ps with
  | nil => intro st i s e h; exact Or.inl h
  | cons p rest ih =>
    intro st i s e h
    rw [List.foldl_cons] at h
    rcases ih (aiStep st p) i s e h with h1 | ⟨q, hq, hqe⟩
    · unfold aiStep at h1
      by_cases hs : pyStrip p.2 = aiStartMarker
      · simp only [hs, if_pos] at h1
        exact Or.inl h1
      · by_cases he : pyStrip p.2 = aiEndMarker
        · simp only [hs, he, if_neg, if_pos, ite_true, ite_false] at h1
          cases hsa : st.ai_start with
          | none => rw [hsa] at h1; exact Or.inl h1
          | some s0 =>
            rw [hsa] at h1
            simp only at h1
            by_cases hin : st.in_ai
            · rw [if_pos hin] at h1
              rcases List.mem_append.mp h1 with h2 | h2
              · exact Or.inl h2
              · rcases List.mem_map.mp h2 with ⟨k, hk, hkeq⟩
                have hk' := List.mem_range.mp hk
                injection hkeq with hkeq1 hkeq2
                injection hkeq2 with hkeq2 hkeq3
                refine Or.inr ⟨p, List.mem_cons_self p rest, he, ?_, ?_, hkeq3.symm⟩
                · omega
                · omega
            · rw [if_neg hin] at h1
              exact Or.inl h1
        · simp only [hs, he, if_neg, ite_false] at h1
          exact Or.inl h1
    · exact Or.inr ⟨q, List.mem_cons_of_mem p hq, hqe⟩

/-- A block number absent from every entry of the map looks up to
`none`. -/
theorem blockLookup_eq_none {bn : Nat} :
    ∀ {l : List (Nat × Nat × Nat)}, (∀ s e, (bn, s, e) ∉ l) →
      blockLookup bn l = none := by
  intro l
  induction l with
  | nil => intro _; rfl
  | cons q rest ih =>
    obtain ⟨i, s, e⟩ := q
    intro h
    have hne : i ≠ bn := fun heq => h s e (by rw [heq]; exact List.mem_cons_self _ _)
    unfold blockLookup
    rw [if_neg hne]
    exact ih (fun s' e' hm => h s' e' (List.mem_cons_of_mem _ hm))

/-- Counterexample to claim C4: a document whose first line is the
start marker with no end marker after it produces no assistant region
at all — in particular no region containing the final line — rather
than one extending to the end of the document. -/
theorem C4_counterexample :
    let lines := docLines "§§§AI_RESPONSE_START§§§\nhello".toList
    pyStrip (lines.getD 0 []) = aiStartMarker ∧
    lines.length = 2 ∧
    find_ai_response_blocks lines = [] ∧
    blockLookup 1 (find_ai_response_blocks lines) ≠ some (0, 1) := by
  decide

/-- Claim C4 as amended: a start marker at line `k` with no end-marker
line anywhere after it opens no assistant region at all — every line
from `k` to the end of the document (in particular the marker line
itself) belongs to no recorded region, because the classifier records
blocks only when an end marker arrives; being a total function it
raises no error.  Matched pairs earlier in the document are recorded
as usual. -/
theorem C4_amended (lines : List (List Char)) (k : Nat)
    (hk : k < lines.length)
    (hstart : pyStrip (lines.getD k []) = aiStartMarker)
    (hnoend : ∀ j ∈ List.range lines.length, k < j →
      pyStrip (lines.getD j []) ≠ aiEndMarker) :
    ∀ bn, k ≤ bn → blockLookup bn (find_ai_response_blocks lines) = none := by
  intro bn hbn
  apply blockLookup_eq_none
  intro s e hmem
  unfold find_ai_response_blocks at hmem
  rcases aiScan_blocks_from_end lines.enum ⟨[], false, none⟩ bn s e hmem with
    h0 | ⟨q, hq, hqend, hsi, hie, hqe⟩
  · simp at h0
  · have hq2 : lines[q.1]? = some q.2 := List.mem_enum_iff_getElem?.mp hq
    have hqlt : q.1 < lines.length := by
      rcases List.getElem?_eq_some.mp hq2 with ⟨hlt, _⟩; exact hlt
    have hline : lines.getD q.1 [] = q.2 := by
      rw [List.getD_eq_getElem?_getD, hq2]; rfl
    have hqk : q.1 < k := by
      rcases Nat.lt_trichotomy q.1 k with hlt | heq | hgt
      · exact hlt
      · rw [← heq] at hstart
        rw [hline] at hstart
        exact absurd (hstart.symm.trans hqend) (by decide)
      · exact absurd (hline ▸ hqend)
          (hnoend q.1 (List.mem_range.mpr hqlt) hgt)
    omega

/-- Witness for the amended C4: in a document holding a matched marker
pair followed by a second, unterminated start marker at line 3, lines
3 and 4 belong to no recorded region, while the earlier matched pair
is still recorded. -/
theorem C4_amended_witness :
    (blockLookup 3 (find_ai_response_blocks (docLines
      "§§§AI_RESPONSE_START§§§\nx\n§§§AI_RESPONSE_END§§§\n§§§AI_RESPONSE_START§§§\ny".toList)) =
      none) ∧
    (blockLookup 4 (find_ai_response_blocks (docLines
      "§§§AI_RESPONSE_START§§§\nx\n§§§AI_RESPONSE_END§§§\n§§§AI_RESPONSE_START§§§\ny".toList)) =
      none) ∧
    (blockLookup 1 (find_ai_response_blocks (docLines
      "§§§AI_RESPONSE_START§§§\nx\n§§§AI_RESPONSE_END§§§\n§§§AI_RESPONSE_START§§§\ny".toList)) =
      some (0, 2)) := by
  refine ⟨?_, ?_, by decide⟩
  · exact C4_amended _ 3 (by decide) (by decide) (by decide) 3 (by decide)
  · exact C4_amended _ 3 (by decide) (by decide) (by decide) 4 (by decide)

/-! ## Claim C5 -/

/-- Closing a callout never changes the fold state of a manually
toggled start line. -/
theorem closeCallout_folded_mem (manual : Finset Nat) (st : CalloutScan)
    (s stop b : Nat) (hb : b ∈ manual) :
    b ∈ (closeCallout manual st s stop).folded ↔ b ∈ st.folded := by
  unfold closeCallout
  by_cases hc : st.is_thinking ∧ s ∉ manual ∧ s ∉ st.folded
  · have hsb : b ≠ s := fun he => hc.2.1 (he ▸ hb)
    simp [hc, Finset.mem_insert, hsb]
  · simp [hc]

/-- The classification loop never changes the fold state of a manually
toggled start line. -/
theorem calloutFold_mem (manual : Finset Nat) (b : Nat) (hb : b ∈ manual)
    (ps : List (Nat × List Char)) :
    ∀ st : CalloutScan,
      (b ∈ (ps.foldl (calloutStep manual) st).folded ↔ b ∈ st.folded) := by
  induction ps with
  | nil => intro st; exact Iff.rfl
  | cons p rest ih =>
    intro st
    simp only [List.foldl_cons]
    rw [ih (calloutStep manual st p)]
    unfold calloutStep
    split
    · cases st.current_start <;> exact Iff.rfl
    · cases hcs : st.current_start with
      | none => exact Iff.rfl
      | some s => exact closeCallout_folded_mem manual st s p.1 b hb

/-- Counterexample to claim C5: a `> thinking...` callout is folded by
the first classification pass and manually unfolded via the fold
toggle; an edit that inserts a line above it shifts its start line
from 0 to 1, and the next reclassification pass folds it again. -/
theorem C5_counterexample :
    let l1 := ["> thinking...".toList, "x".toList]
    let r1 := find_callout_blocks l1 ∅ ∅
    let tg := toggle_callout_fold r1.1 r1.2 ∅ 0
    let l2 := ["y".toList, "> thinking...".toList, "x".toList]
    let r2 := find_callout_blocks l2 tg.1 tg.2
    r1.2 = {0} ∧ tg.1 = ∅ ∧ tg.2 = {0} ∧
    pyLower (pyStrip (l2.getD 1 [])) = "> thinking...".toList ∧
    1 ∈ r2.2 := by
  decide

/-- Claim C5 as amended: the first classification pass auto-folds a
`> thinking...` callout (shown on a concrete document), and a
reclassification pass never changes the fold state of a manually
toggled start line — so after a manual unfold the callout stays
unfolded as long as its starting line number is unchanged (an edit
that shifts the start line forfeits this protection, as the
counterexample shows). -/
theorem C5_amended :
    (∀ (lines : List (List Char)) (folded manual : Finset Nat) (b : Nat),
      b ∈ manual →
      (b ∈ (find_callout_blocks lines folded manual).2 ↔ b ∈ folded)) ∧
    (find_callout_blocks ["> thinking...".toList, "x".toList] ∅ ∅).2 = {0} := by
  constructor
  · intro lines folded manual b hb
    unfold find_callout_blocks calloutFinish
    split
    · exact calloutFold_mem manual b hb lines.enum ⟨[], folded, none, false⟩
    · rename_i s _
      rw [closeCallout_folded_mem manual _ s lines.length b hb]
      exact calloutFold_mem manual b hb lines.enum ⟨[], folded, none, false⟩
  · decide

/-- Witness for the amended C5: with start line 0 marked manually
toggled and unfolded, reclassifying the shifted document leaves line 0
unfolded. -/
theorem C5_amended_witness :
    (0 : Nat) ∈ ({0} : Finset Nat) ∧
    (0 : Nat) ∉ (find_callout_blocks
      ["y".toList, "> thinking...".toList, "x".toList] ∅ {0}).2 := by
  refine ⟨by decide, fun hmem => ?_⟩
  have h := (C5_amended.1
    ["y".toList, "> thinking...".toList, "x".toList] ∅ {0} 0 (by decide)).mp hmem
  simp at h

/-! ## Claim C9 -/

theorem getLast?_append_right (l l2 : List Char) (h : l2 ≠ []) :
    (l ++ l2).getLast? = l2.getLast? := by
  rw [List.getLast?_append]
  cases hc : l2.getLast? with
  | none => rw [List.getLast?_eq_none_iff] at hc; exact absurd hc h
  | some x => rfl

theorem pjoin1_shape (p comp : List Char) (h1 : comp.head? ≠ some '/') :
    ∃ pre, pjoin1 p comp = pre ++ comp := by
  unfold pjoin1
  rw [if_neg h1]
  by_cases h2 : p = [] ∨ p.getLast? = some '/'
  · rw [if_pos h2]; exact ⟨p, rfl⟩
  · rw [if_neg h2]; exact ⟨p ++ ['/'], by simp⟩

theorem pjoin1_nonslash (p comp : List Char) (hp : p ≠ [])
    (hl : p.getLast? ≠ some '/') (h1 : comp.head? ≠ some '/') :
    pjoin1 p comp = p ++ '/' :: comp := by
  unfold pjoin1
  rw [if_neg h1, if_neg (not_or.mpr ⟨hp, hl⟩)]

/-- Claim C9: for 2025-05-29 `create_journal_entry` returns a path
ending `2025/05/29.md` under the journal directory; when the file does
not yet exist it is created with content exactly
`"# Thursday 29th May 2025\n\n"`, and when it already exists the file
system is left untouched. -/
theorem C9_create_journal_entry (jdir : List Char) (fs : FS) :
    (∃ pre, (create_journal_entry jdir ⟨2025, 5, 29⟩ fs).1 =
        pre ++ "2025/05/29.md".toList) ∧
    (fsRead fs (create_journal_entry jdir ⟨2025, 5, 29⟩ fs).1 = none →
      fsRead (create_journal_entry jdir ⟨2025, 5, 29⟩ fs).2
          (create_journal_entry jdir ⟨2025, 5, 29⟩ fs).1 =
        some "# Thursday 29th May 2025\n\n".toList) ∧
    (∀ c, fsRead fs (create_journal_entry jdir ⟨2025, 5, 29⟩ fs).1 = some c →
      (create_journal_entry jdir ⟨2025, 5, 29⟩ fs).2 = fs) := by
  have hcomp : get_journal_path_components ⟨2025, 5, 29⟩ =
      ("2025".toList, "05".toList, "29".toList) := by decide
  obtain ⟨pre1, hr1⟩ := pjoin1_shape jdir "2025".toList (by decide)
  have hlast1 : (pre1 ++ "2025".toList).getLast? = some '5' := by
    rw [getLast?_append_right _ _ (by decide)]; decide
  have h2 : pjoin1 (pre1 ++ "2025".toList) "05".toList =
      (pre1 ++ "2025".toList) ++ '/' :: "05".toList :=
    pjoin1_nonslash _ _ (by simp) (by rw [hlast1]; decide) (by decide)
  have hlast2 : ((pre1 ++ "2025".toList) ++ '/' :: "05".toList).getLast? =
      some '5' := by
    rw [getLast?_append_right _ _ (by decide)]; decide
  have h3 : pjoin1 ((pre1 ++ "2025".toList) ++ '/' :: "05".toList)
        ("29".toList ++ ".md".toList) =
      ((pre1 ++ "2025".toList) ++ '/' :: "05".toList) ++
        '/' :: ("29".toList ++ ".md".toList) :=
    pjoin1_nonslash _ _ (by simp) (by rw [hlast2]; decide) (by decide)
  have hpath : journalFilePath jdir ⟨2025, 5, 29⟩ =
      pre1 ++ "2025/05/29.md".toList := by
    unfold journalFilePath
    rw [hcomp]
    simp only [pjoinList, List.foldl_cons, List.foldl_nil]
    rw [hr1, h2, h3, List.append_assoc, List.append_assoc]
    congr 1
  have hfst : (create_journal_entry jdir ⟨2025, 5, 29⟩ fs).1 =
      journalFilePath jdir ⟨2025, 5, 29⟩ := by
    unfold create_journal_entry
    cases h : fsRead fs (journalFilePath jdir ⟨2025, 5, 29⟩) <;> simp
  refine ⟨⟨pre1, by rw [hfst, hpath]⟩, ?_, ?_⟩
  · intro hnone
    rw [hfst] at hnone
    rw [hfst]
    simp only [create_journal_entry, hnone]
    have hh : create_journal_header ⟨2025, 5, 29⟩ =
        "# Thursday 29th May 2025\n\n".toList := by decide
    simp [fsRead, fsWrite, hh]
  · intro c hc
    rw [hfst] at hc
    simp [create_journal_entry, hc]

/-- Witness for C9: on the empty file system the entry is created with
the formatted header, and on a file system already holding the entry
nothing changes. -/
theorem C9_create_journal_entry_witness :
    (fsRead (create_journal_entry "journal".toList ⟨2025, 5, 29⟩ []).2
        (create_journal_entry "journal".toList ⟨2025, 5, 29⟩ []).1 =
      some "# Thursday 29th May 2025\n\n".toList) ∧
    ((create_journal_entry "journal".toList ⟨2025, 5, 29⟩
        [("journal/2025/05/29.md".toList, "old".toList)]).2 =
      [("journal/2025/05/29.md".toList, "old".toList)]) := by
  constructor
  · exact (C9_create_journal_entry "journal".toList []).2.1 (by decide)
  · exact (C9_create_journal_entry "journal".toList
      [("journal/2025/05/29.md".toList, "old".toList)]).2.2 "old".toList
      (by decide)

/-! ## Claim C6 -/

end ObsidianClone
